import Mathlib

/-!
Verification of the batched cloud-storage operation engine of
`cloud-storage-utility` (Python). The definitions below are shallow
embeddings of the functions in `src/cloud_storage_utility/`, keeping the
source names where Lean allows it. Network and filesystem collaborators
are represented by explicit environment values (responses, success flags);
Python exceptions are represented by the `PyErr` type and `Except`.
-/

set_option autoImplicit false

/-- Python exception kinds that can surface in the embedded code paths.
`lifecycleError` never occurs in the code; it exists only so that
statements about it can be expressed. -/
inductive PyErr where
  | connectionError
  | keyError
  | attributeError
  | unboundLocalError
  | fileNotFoundError
  | lifecycleError
deriving DecidableEq, Repr

deriving instance DecidableEq for Except

namespace IbmCloudStorage

/-! ### Batch splitter (`IbmCloudStorage.get_remove_items_coroutines`,
`platforms/ibm_cloud_storage.py` lines 165-193).

The Python loop walks `item_names` with `enumerate`, appends each name to
`request`, closes a request every time `(i + 1) % 1000 == 0`, and finally
appends any non-empty leftover request. `splitLoop` is that loop with the
loop state (`i`, `request`, `delete_requests`) made explicit. -/

def splitLoop {α : Type} : List α → Nat → List α → List (List α) → List (List α) × List α
  | [], _, request, delete_requests => (delete_requests, request)
  | name :: rest, i, request, delete_requests =>
    let request2 := request ++ [name]
    if (i + 1) % 1000 = 0 then
      splitLoop rest (i + 1) [] (delete_requests ++ [request2])
    else
      splitLoop rest (i + 1) request2 delete_requests

/-- Embedding of `IbmCloudStorage.get_remove_items_coroutines`, restricted to
the batch-splitting it performs: the returned value is the list of key
batches, one per bulk-delete request it would create. -/
def get_remove_items_coroutines {α : Type} (item_names : List α) : List (List α) :=
  if item_names.length = 0 then []
  else
    let res := splitLoop item_names 0 [] []
    if res.2.length > 0 then res.1 ++ [res.2] else res.1

/-! ### Bulk delete (`IbmCloudStorage.remove_item`, lines 131-162).

The environment collapses every step of the `try` block that can raise
(`xmltodict.unparse`, token acquisition, the POST, parsing the response)
into one `Except` value: on success it carries the parsed
`DeleteResult.Deleted` field, whose shape is either a single item or a
list of items (the XML singleton quirk). When any step raises, the local
variable `file_list` is never assigned, so the `finally` block's
`callback(bucket_name, file_list)` raises `UnboundLocalError` whenever a
callback was supplied. -/

inductive DeletedShape where
  | single (key : String)
  | multi (keys : List String)
deriving DecidableEq, Repr

/-- The `file_list` computed from the parsed `DeleteResult.Deleted` field. -/
def deletedKeys : DeletedShape → List String
  | DeletedShape.single k => [k]
  | DeletedShape.multi ks => ks

structure RemoveOut where
  callbacks : List (String × List String)
  result : Except PyErr Bool
deriving DecidableEq, Repr

/-- Embedding of `IbmCloudStorage.remove_item`. `env` is the outcome of the
`try` block up to the assignment of `file_list`; `request` is the list of
keys in the delete request body; `callbackGiven` states whether a callback
was supplied. -/
def remove_item (env : Except PyErr DeletedShape) (bucket_name : String)
    (request : List String) (callbackGiven : Bool) : RemoveOut :=
  match env with
  | Except.error _ =>
    if callbackGiven then
      { callbacks := [], result := Except.error PyErr.unboundLocalError }
    else
      { callbacks := [], result := Except.ok false }
  | Except.ok shape =>
    let file_list := deletedKeys shape
    { callbacks := if callbackGiven then [(bucket_name, file_list)] else [],
      result := Except.ok true }

/-! ### Upload (`IbmCloudStorage.upload_file`, lines 88-129).

Steps in the `try` block, in source order: token acquisition (can raise),
the reassignment `cloud_key = prefix + cloud_key` when the prefix is
non-empty (Python truthiness), `open(file_path)` (can raise), the PUT (can
raise at the connection level). Every exception is caught and turns into
`upload_succeeded = False`; the `finally` block invokes the callback with
the current value of `cloud_key`. -/

structure UploadEnv where
  auth : Except PyErr String
  openOk : Bool
  putOk : Bool

structure UploadCallbackRecord where
  bucket_name : String
  cloud_key : String
  file_path : String
  succeeded : Bool
deriving DecidableEq, Repr

structure UploadOut where
  putKeys : List String
  callbacks : List UploadCallbackRecord
  result : Except PyErr Bool
deriving DecidableEq, Repr

/-- Embedding of `IbmCloudStorage.upload_file`. `putKeys` records the cloud
key used in each PUT request URL that was issued. -/
def upload_file (env : UploadEnv) (bucket_name cloud_key file_path pfx : String)
    (callbackGiven : Bool) : UploadOut :=
  match env.auth with
  | Except.error _ =>
    { putKeys := [],
      callbacks :=
        if callbackGiven then [⟨bucket_name, cloud_key, file_path, false⟩] else [],
      result := Except.ok false }
  | Except.ok _ =>
    let key2 := if pfx ≠ "" then pfx ++ cloud_key else cloud_key
    if env.openOk then
      { putKeys := [key2],
        callbacks :=
          if callbackGiven then [⟨bucket_name, key2, file_path, env.putOk⟩] else [],
        result := Except.ok env.putOk }
    else
      { putKeys := [],
        callbacks :=
          if callbackGiven then [⟨bucket_name, key2, file_path, false⟩] else [],
        result := Except.ok false }

/-! ### Credential cache (`IbmCloudStorage.__get_auth_token`, lines 229-244,
with the fields initialised in `__init__`, lines 23-24). -/

structure TokenCacheState where
  expires_at : Int
  access_token : String
deriving DecidableEq, Repr

/-- Cache state set up by `IbmCloudStorage.__init__`. -/
def initialCache : TokenCacheState := { expires_at := -1, access_token := "" }

structure AuthResponse where
  expiration : Int
  access_token : String
deriving DecidableEq, Repr

/-- Embedding of `IbmCloudStorage.__get_auth_token`. `now` is
`int(time.time())`; `resp` is the JSON body a token-exchange call would
return. The first component counts the token-exchange network calls
issued (0 or 1); the second is the updated cache state; the third is the
returned token value. -/
def get_auth_token (now : Int) (resp : AuthResponse) (st : TokenCacheState) :
    Nat × TokenCacheState × String :=
  if now ≥ st.expires_at then
    (1, { expires_at := resp.expiration, access_token := resp.access_token },
      resp.access_token)
  else
    (0, st, st.access_token)

/-! ### Paginated listing (`IbmCloudStorage.get_bucket_keys`, lines 26-86).

Each iteration of the `while is_truncated` loop issues one GET; the
environment supplies, for each GET in order, either a raised exception or
the parsed `ListBucketResult` structure. A `Page` is that parsed
structure: `contents` mirrors the optional `Contents` field (with the XML
singleton quirk: a single item when exactly one key matched), and
`nextContinuationToken` mirrors the optional `NextContinuationToken`
field (reading it when absent raises `KeyError`). If the loop would issue
more GETs than the environment has responses, the run is treated as a
connection failure. -/

structure XmlItem where
  key : String
  lastModified : String
  size : String
deriving DecidableEq, Repr

inductive ContentsField where
  | single (item : XmlItem)
  | multi (items : List XmlItem)
deriving DecidableEq, Repr

structure Page where
  contents : Option ContentsField
  isTruncated : String
  nextContinuationToken : Option String
deriving DecidableEq, Repr

structure BucketKeyMetadata where
  last_modified : String
  bytes : String
deriving DecidableEq, Repr

/-- Python `dict` update for one key: overwrite in place if present,
append otherwise (insertion-order semantics). -/
def dictInsert (acc : List (String × BucketKeyMetadata)) (k : String)
    (v : BucketKeyMetadata) : List (String × BucketKeyMetadata) :=
  if acc.any (fun p => p.1 = k) then
    acc.map (fun p => if p.1 = k then (k, v) else p)
  else
    acc ++ [(k, v)]

/-- Python `all_items.update(items)`. -/
def dictUpdate (acc : List (String × BucketKeyMetadata))
    (items : List (String × BucketKeyMetadata)) : List (String × BucketKeyMetadata) :=
  items.foldl (fun a p => dictInsert a p.1 p.2) acc

/-- The key/metadata pairs built from one page's `Contents` field. -/
def pageItems : Option ContentsField → List (String × BucketKeyMetadata)
  | none => []
  | some (ContentsField.single item) => [(item.key, ⟨item.lastModified, item.size⟩)]
  | some (ContentsField.multi items) =>
      items.map (fun item => (item.key, ⟨item.lastModified, item.size⟩))

/-- Query parameters of the first GET: `{"prefix": prefix.strip()}` when the
prefix is non-empty, `{}` otherwise (lines 35-37). -/
def initParams (pfx : String) : List (String × String) :=
  if pfx ≠ "" then [("prefix", pfx.trim)] else []

/-- The `while is_truncated` loop of `IbmCloudStorage.get_bucket_keys`.
State threaded through: the continuation token from the previous page
(`none` on the first iteration), the current `params` dict, and the
`all_items` accumulator. Returns the query-parameter list of every GET
issued, paired with either the accumulated mapping or the first raised
exception. On iterations after a page carried a truthy
`NextContinuationToken`, `params` is rebuilt as
`{"continuation-token": token, "prefix": prefix}` (lines 43-47). -/
def listLoop (pfx : String) (contTok : Option String)
    (params : List (String × String)) (acc : List (String × BucketKeyMetadata)) :
    List (Except PyErr Page) →
      List (List (String × String)) × Except PyErr (List (String × BucketKeyMetadata))
  | [] => ([], Except.error PyErr.connectionError)
  | resp :: rest =>
    let params2 :=
      match contTok with
      | some tok =>
          if tok ≠ "" then [("continuation-token", tok), ("prefix", pfx)] else params
      | none => params
    match resp with
    | Except.error e => ([params2], Except.error e)
    | Except.ok page =>
      let acc2 := dictUpdate acc (pageItems page.contents)
      if page.isTruncated = "true" then
        match page.nextContinuationToken with
        | none => ([params2], Except.error PyErr.keyError)
        | some tok =>
          let r := listLoop pfx (some tok) params2 acc2 rest
          (params2 :: r.1, r.2)
      else
        ([params2], Except.ok acc2)

structure ListEnv where
  auth : Except PyErr String
  pages : List (Except PyErr Page)

/-- The listing run: token acquisition followed by the pagination loop.
First component: the query parameters of every GET issued; second: the
outcome of the `try` block of `IbmCloudStorage.get_bucket_keys`. -/
def runListing (env : ListEnv) (pfx : String) :
    List (List (String × String)) × Except PyErr (List (String × BucketKeyMetadata)) :=
  match env.auth with
  | Except.error e => ([], Except.error e)
  | Except.ok _ => listLoop pfx none (initParams pfx) [] env.pages

/-- Embedding of `IbmCloudStorage.get_bucket_keys`: any exception raised in
the `try` block is logged and turned into an empty mapping (lines 82-84). -/
def get_bucket_keys (env : ListEnv) (pfx : String) :
    List (String × BucketKeyMetadata) :=
  match (runListing env pfx).2 with
  | Except.error _ => []
  | Except.ok d => d

end IbmCloudStorage

namespace FileBroker

/-! ### Operation executor (`FileBroker.__gather_results`,
`file_broker.py` lines 73-77).

The Python loop is `for i in range(0, len(tasks), batch_limit)` with one
`asyncio.gather` over the slice `tasks[i : i + batch_limit]` per
iteration; each `gather` is awaited before the next slice starts, so the
slices are the synchronization windows. Operations are modelled as pure
values standing for their results. -/

/-- Python `range(0, stop, step)` for `step ≥ 1`: the stride indices. -/
def pyRange (stop step : Nat) : List Nat :=
  (List.range ((stop + step - 1) / step)).map (fun k => k * step)

/-- The successive windows `tasks[i : i + B]` gathered by
`FileBroker.__gather_results`. -/
def gatherWindows {α : Type} (tasks : List α) (B : Nat) : List (List α) :=
  (pyRange tasks.length B).map (fun i => (tasks.drop i).take B)

/-- Embedding of `FileBroker.__gather_results`: the flat result list built
by `results += await asyncio.gather(*tasks[i : i + batch_limit])`. -/
def gather_results {α : Type} (tasks : List α) (B : Nat) : List α :=
  (gatherWindows tasks B).flatten

/-! ### Broker lifecycle (`FileBroker.__init__` lines 47-55, `__aenter__`
lines 57-65, `__aexit__` lines 67-68, `get_bucket_keys` lines 87-99).

`__init__` sets `self.service = None` and `self.session = None`; `open`
(via `__aenter__`) creates the session and the `IbmCloudStorage` service;
`close` (via `__aexit__`) closes the session but leaves `self.service`
set. A verb called before `open` therefore dereferences `None`
(`AttributeError`); a verb called after `close` still dispatches to the
service, whose network calls all fail on the closed session. -/

structure BrokerState where
  service : Option Unit
  sessionClosed : Bool
deriving DecidableEq, Repr

/-- State after `FileBroker.__init__`. -/
def init : BrokerState := { service := none, sessionClosed := false }

/-- Embedding of `FileBroker.__aenter__` (reached through `open`). -/
def aenter (_b : BrokerState) : BrokerState :=
  { service := some (), sessionClosed := false }

/-- Embedding of `FileBroker.__aexit__` (reached through `close`): the
session is closed, `self.service` is left in place. -/
def aexit (b : BrokerState) : BrokerState :=
  { service := b.service, sessionClosed := true }

/-- Embedding of the `FileBroker.get_bucket_keys` verb. With no service the
attribute access `self.service.get_bucket_keys` raises `AttributeError`;
with a closed session every network call the service makes raises, which
`IbmCloudStorage.get_bucket_keys` swallows. -/
def get_bucket_keys (b : BrokerState) (env : IbmCloudStorage.ListEnv)
    (pfx : String) : Except PyErr (List (String × IbmCloudStorage.BucketKeyMetadata)) :=
  match b.service with
  | none => Except.error PyErr.attributeError
  | some _ =>
    let env2 : IbmCloudStorage.ListEnv :=
      if b.sessionClosed then
        { auth := Except.error PyErr.connectionError, pages := [] }
      else env
    Except.ok (IbmCloudStorage.get_bucket_keys env2 pfx)

/-! ### Local synchronization (`FileBroker.sync_local_files`, lines
180-221).

`os.path.dirname` and `os.path.basename` are stdlib collaborators; a local
path is modelled as the pair of their results, and the `os.path.exists`
probe as a boolean oracle over paths. `itertools.groupby` groups only
*consecutive* elements with equal keys; `groupbyGo` is its run-building
loop with the current key and current run made explicit. -/

structure LocalPath where
  dir : String
  base : String
deriving DecidableEq, Repr

/-- Run-building loop of Python `itertools.groupby`. -/
def groupbyGo {α β : Type} [DecidableEq β] (f : α → β) (curKey : β)
    (run : List α) : List α → List (β × List α)
  | [] => [(curKey, run)]
  | x :: rest =>
    if f x = curKey then groupbyGo f curKey (run ++ [x]) rest
    else (curKey, run) :: groupbyGo f (f x) [x] rest

/-- Python `itertools.groupby(l, key=f)`, with each lazy group materialised:
one `(key, group)` entry per maximal run of consecutive elements sharing
a key. -/
def groupby {α β : Type} [DecidableEq β] (f : α → β) : List α → List (β × List α)
  | [] => []
  | x :: rest => groupbyGo f (f x) [x] rest

/-- Embedding of `FileBroker.sync_local_files`: filters out the paths that
exist locally, groups the rest with `itertools.groupby` keyed on
`os.path.dirname`, and issues one `download_files` call per group, using
the base names as cloud keys. The returned list has one entry per
`download_files` call: the target local directory paired with the file
names requested. -/
def sync_local_files (existsLocal : LocalPath → Bool) (file_paths : List LocalPath) :
    List (String × List String) :=
  let missing_files := file_paths.filter (fun p => !(existsLocal p))
  let download_groups := groupby (fun p => p.dir) missing_files
  download_groups.map (fun g => (g.1, g.2.map (fun p => p.base)))

end FileBroker

/-! ### Sample environments used in concrete statements. -/

/-- First page of a two-page listing: two items, truncated, token `T`. -/
def samplePage1 : IbmCloudStorage.Page :=
  { contents := some (IbmCloudStorage.ContentsField.multi
      [⟨"k1", "t1", "1"⟩, ⟨"k2", "t2", "2"⟩]),
    isTruncated := "true",
    nextContinuationToken := some "T" }

/-- Second page: a single item (XML singleton quirk), not truncated. -/
def samplePage2 : IbmCloudStorage.Page :=
  { contents := some (IbmCloudStorage.ContentsField.single ⟨"k3", "t3", "3"⟩),
    isTruncated := "false",
    nextContinuationToken := none }

/-- A listing environment with a valid token and the two pages above. -/
def sampleListEnv : IbmCloudStorage.ListEnv :=
  { auth := Except.ok "tok", pages := [Except.ok samplePage1, Except.ok samplePage2] }

/-- A listing environment in which token acquisition raises. -/
def authFailListEnv : IbmCloudStorage.ListEnv :=
  { auth := Except.error PyErr.connectionError, pages := [] }

/-- Three local paths whose directories alternate `a`, `b`, `a`. -/
def pathsABA : List FileBroker.LocalPath :=
  [⟨"a", "x"⟩, ⟨"b", "y"⟩, ⟨"a", "z"⟩]

/-!
## Theorems

Claim verdicts, one main theorem per claim, with shared helper lemmas
first.
-/

/-! #### Helper lemmas for the batch splitter -/

theorem splitLoop_flatten {α : Type} :
    ∀ (l : List α) (i : Nat) (req : List α) (dr : List (List α)),
      (IbmCloudStorage.splitLoop l i req dr).1.flatten
          ++ (IbmCloudStorage.splitLoop l i req dr).2
        = dr.flatten ++ req ++ l := by
  intro l
  induction l with
  | nil => intro i req dr; simp [IbmCloudStorage.splitLoop]
  | cons name rest ih =>
    intro i req dr
    simp only [IbmCloudStorage.splitLoop]
    by_cases h : (i + 1) % 1000 = 0
    · rw [if_pos h, ih]
      simp
    · rw [if_neg h, ih]
      simp

theorem splitLoop_lengths {α : Type} :
    ∀ (l : List α) (i : Nat) (req : List α) (dr : List (List α)),
      req.length = i % 1000 →
      (IbmCloudStorage.splitLoop l i req dr).1.map List.length
          = dr.map List.length
            ++ List.replicate ((i + l.length) / 1000 - i / 1000) 1000
      ∧ (IbmCloudStorage.splitLoop l i req dr).2.length = (i + l.length) % 1000 := by
  intro l
  induction l with
  | nil =>
    intro i req dr hreq
    constructor
    · simp [IbmCloudStorage.splitLoop]
    · simpa [IbmCloudStorage.splitLoop] using hreq
  | cons name rest ih =>
    intro i req dr hreq
    simp only [IbmCloudStorage.splitLoop]
    by_cases h : (i + 1) % 1000 = 0
    · rw [if_pos h]
      have hlen : (req ++ [name]).length = 1000 := by
        simp only [List.length_append, List.length_singleton]
        omega
      obtain ⟨h1, h2⟩ := ih (i + 1) [] (dr ++ [req ++ [name]]) (by simp [h])
      constructor
      · rw [h1]
        have hc : (i + (rest.length + 1)) / 1000 - i / 1000
            = ((i + 1 + rest.length) / 1000 - (i + 1) / 1000) + 1 := by omega
        simp only [List.length_cons, hc, List.replicate_succ, List.map_append,
          List.map_cons, List.map_nil, hlen]
        simp
      · rw [h2]
        simp only [List.length_cons]
        omega
    · rw [if_neg h]
      have hlen : (req ++ [name]).length = (i + 1) % 1000 := by
        simp only [List.length_append, List.length_singleton]
        omega
      obtain ⟨h1, h2⟩ := ih (i + 1) (req ++ [name]) dr hlen
      constructor
      · rw [h1]
        have hc : (i + (rest.length + 1)) / 1000 - i / 1000
            = (i + 1 + rest.length) / 1000 - (i + 1) / 1000 := by omega
        simp only [List.length_cons, hc]
      · rw [h2]
        simp only [List.length_cons]
        omega

/-- C1: every batch produced by the remove-batch splitter has at most 1000
keys; the concatenation of all batches, in order, is exactly the input
list; the empty list yields no batches; and any 2001-key input yields
exactly 3 batches of sizes 1000, 1000, 1. -/
theorem remove_batch_splitter_correct (keys : List String) :
    (∀ b ∈ IbmCloudStorage.get_remove_items_coroutines keys, b.length ≤ 1000)
    ∧ (IbmCloudStorage.get_remove_items_coroutines keys).flatten = keys
    ∧ IbmCloudStorage.get_remove_items_coroutines ([] : List String) = []
    ∧ (keys.length = 2001 →
        (IbmCloudStorage.get_remove_items_coroutines keys).map List.length
          = [1000, 1000, 1]) := by
  have hbase : IbmCloudStorage.get_remove_items_coroutines ([] : List String) = [] := rfl
  by_cases h0 : keys.length = 0
  · have hk : keys = [] := List.length_eq_zero.mp h0
    subst hk
    exact ⟨by simp [hbase], by simp [hbase], hbase, by simp⟩
  · obtain ⟨hmap, hrem⟩ := splitLoop_lengths keys 0 [] [] (by simp)
    have hflat := splitLoop_flatten keys 0 [] []
    simp only [List.map_nil, List.nil_append, List.flatten_nil, Nat.zero_add,
      Nat.zero_div, Nat.zero_mod, Nat.sub_zero] at hmap hrem hflat
    have hdef : IbmCloudStorage.get_remove_items_coroutines keys
        = (if (IbmCloudStorage.splitLoop keys 0 [] []).2.length > 0 then
            (IbmCloudStorage.splitLoop keys 0 [] []).1
              ++ [(IbmCloudStorage.splitLoop keys 0 [] []).2]
          else (IbmCloudStorage.splitLoop keys 0 [] []).1) := by
      simp [IbmCloudStorage.get_remove_items_coroutines, h0]
    refine ⟨?_, ?_, hbase, ?_⟩
    · intro b hb
      rw [hdef] at hb
      by_cases hr : (IbmCloudStorage.splitLoop keys 0 [] []).2.length > 0
      · rw [if_pos hr] at hb
        rcases List.mem_append.mp hb with hb1 | hb2
        · have : b.length ∈ (IbmCloudStorage.splitLoop keys 0 [] []).1.map List.length :=
            List.mem_map_of_mem List.length hb1
          rw [hmap] at this
          have := List.eq_of_mem_replicate this
          omega
        · have : b = (IbmCloudStorage.splitLoop keys 0 [] []).2 := by
            simpa using hb2
          rw [this, hrem]
          omega
      · rw [if_neg hr] at hb
        have : b.length ∈ (IbmCloudStorage.splitLoop keys 0 [] []).1.map List.length :=
          List.mem_map_of_mem List.length hb
        rw [hmap] at this
        have := List.eq_of_mem_replicate this
        omega
    · rw [hdef]
      by_cases hr : (IbmCloudStorage.splitLoop keys 0 [] []).2.length > 0
      · rw [if_pos hr]
        simpa using hflat
      · rw [if_neg hr]
        have h2 : (IbmCloudStorage.splitLoop keys 0 [] []).2 = [] := by
          have : (IbmCloudStorage.splitLoop keys 0 [] []).2.length = 0 := by omega
          exact List.length_eq_zero.mp this
        rw [h2] at hflat
        simpa using hflat
    · intro h2001
      rw [hdef]
      rw [h2001] at hmap hrem
      norm_num at hmap hrem
      rw [if_pos (by omega)]
      rw [List.map_append, hmap]
      simp [hrem, List.replicate_succ]

/-- Witness for C1 at a concrete 2001-key input. -/
theorem remove_batch_splitter_correct_witness :
    (List.replicate 2001 "k").length = 2001
    ∧ (IbmCloudStorage.get_remove_items_coroutines
        (List.replicate 2001 "k")).map List.length = [1000, 1000, 1] :=
  ⟨List.length_replicate 2001 "k",
    (remove_batch_splitter_correct (List.replicate 2001 "k")).2.2.2
      (List.length_replicate 2001 "k")⟩

/-! #### Helper lemmas for the operation executor -/

theorem flatten_slices_take {α : Type} (B : Nat) (tasks : List α) :
    ∀ k : Nat,
      ((List.range k).map (fun j => (tasks.drop (j * B)).take B)).flatten
        = tasks.take (k * B) := by
  intro k
  induction k with
  | zero => simp
  | succ k ih =>
    rw [List.range_succ, List.map_append, List.flatten_append, ih]
    simp only [List.map_cons, List.map_nil, List.flatten_cons, List.flatten_nil,
      List.append_nil]
    rw [Nat.succ_mul, List.take_add]

theorem ceil_mul_ge (n B : Nat) (hB : 0 < B) : n ≤ ((n + B - 1) / B) * B := by
  have h1 := Nat.div_add_mod (n + B - 1) B
  have h2 := Nat.mod_lt (n + B - 1) hB
  rw [Nat.mul_comm] at h1
  omega

/-- C2: for every operation list and positive batch limit `B`, the executor
produces `ceil(N/B)` consecutive windows, each of at most `B` operations,
and the flat result list collects every operation's result in input order
(nothing dropped). Each window is one awaited `asyncio.gather`, so window
`i` completes before window `i+1` starts. -/
theorem gather_results_windows {α : Type} (tasks : List α) (B : Nat) (hB : 0 < B) :
    (FileBroker.gatherWindows tasks B).length = (tasks.length + B - 1) / B
    ∧ (∀ w ∈ FileBroker.gatherWindows tasks B, w.length ≤ B)
    ∧ FileBroker.gather_results tasks B = tasks := by
  refine ⟨?_, ?_, ?_⟩
  · simp only [FileBroker.gatherWindows, FileBroker.pyRange, List.length_map,
      List.length_range]
  · intro w hw
    simp only [FileBroker.gatherWindows, List.mem_map] at hw
    obtain ⟨i, _, rfl⟩ := hw
    simp [List.length_take]
  · unfold FileBroker.gather_results FileBroker.gatherWindows FileBroker.pyRange
    rw [List.map_map]
    simp only [Function.comp_def]
    rw [flatten_slices_take]
    exact List.take_of_length_le (ceil_mul_ge tasks.length B hB)

/-- Witness for C2 at five operations and batch limit 2. -/
theorem gather_results_windows_witness :
    0 < 2
    ∧ ((FileBroker.gatherWindows [1, 2, 3, 4, 5] 2).length = (5 + 2 - 1) / 2
      ∧ (∀ w ∈ FileBroker.gatherWindows [1, 2, 3, 4, 5] 2, w.length ≤ 2)
      ∧ FileBroker.gather_results [1, 2, 3, 4, 5] 2 = [1, 2, 3, 4, 5]) :=
  ⟨by decide, gather_results_windows [1, 2, 3, 4, 5] 2 (by decide)⟩

/-- C3 (code bug): when any step of the bulk-delete `try` block raises (here
a failed POST) and a callback was supplied, `remove_item` does not catch
the failure, invoke the callback, and return `False` as the class contract
requires — the `finally` block reads the never-assigned `file_list` and
raises `UnboundLocalError`, which propagates into the surrounding
`asyncio.gather` and aborts the batch. -/
theorem remove_item_failure_raises_unbound_local :
    IbmCloudStorage.remove_item (Except.error PyErr.connectionError) "bucket" ["k1"] true
      = { callbacks := [], result := Except.error PyErr.unboundLocalError } := rfl

/-- C4 counterexample: a batch that attempts keys `a` and `b` but whose
provider response reports only `a` as deleted invokes the callback with
`[a]`, not with the attempted list `[a, b]`. -/
theorem remove_item_callback_counterexample :
    (IbmCloudStorage.remove_item
        (Except.ok (IbmCloudStorage.DeletedShape.multi ["a"])) "b" ["a", "b"]
        true).callbacks = [("b", ["a"])]
    ∧ [("b", ["a"])] ≠ [("b", ["a", "b"])] :=
  ⟨rfl, by simp⟩

/-- C4 amended: for every bulk-delete batch whose request/response round
trip succeeds, the callback is invoked exactly once with the list of keys
the provider's response reports as deleted (normalising the XML singleton
quirk), which need not be the list of keys the batch attempted. -/
theorem remove_item_callback_reports_deleted (shape : IbmCloudStorage.DeletedShape)
    (bucket : String) (request : List String) :
    (IbmCloudStorage.remove_item (Except.ok shape) bucket request true).callbacks
        = [(bucket, IbmCloudStorage.deletedKeys shape)]
    ∧ (IbmCloudStorage.remove_item (Except.ok shape) bucket request true).result
        = Except.ok true := by
  cases shape <;> exact ⟨rfl, rfl⟩

/-- C5: a call made strictly before the cached expiry returns the cached
token with no network call; a call made at or after the cached expiry
(including the initial state, whose expiry is `-1`, for any non-negative
clock reading) issues exactly one token-exchange call and replaces both
the cached token and the expiry before returning the new value. -/
theorem get_auth_token_cache (now : Int) (st : IbmCloudStorage.TokenCacheState)
    (resp : IbmCloudStorage.AuthResponse) :
    (now < st.expires_at →
      IbmCloudStorage.get_auth_token now resp st = (0, st, st.access_token))
    ∧ (st.expires_at ≤ now →
      IbmCloudStorage.get_auth_token now resp st
        = (1, { expires_at := resp.expiration, access_token := resp.access_token },
            resp.access_token))
    ∧ (0 ≤ now →
      (IbmCloudStorage.get_auth_token now resp IbmCloudStorage.initialCache).1 = 1) := by
  refine ⟨?_, ?_, ?_⟩
  · intro h
    unfold IbmCloudStorage.get_auth_token
    rw [if_neg (by omega)]
  · intro h
    unfold IbmCloudStorage.get_auth_token
    rw [if_pos (by omega)]
  · intro h
    unfold IbmCloudStorage.get_auth_token
    rw [if_pos (show now ≥ IbmCloudStorage.initialCache.expires_at by
      simp only [IbmCloudStorage.initialCache]; omega)]

/-- Witness for C5: a fresh-token call at time 5 against an expiry of 10 is
served from the cache. -/
theorem get_auth_token_cache_witness :
    (5 : Int) < 10
    ∧ IbmCloudStorage.get_auth_token 5 ⟨100, "new"⟩ ⟨10, "tok"⟩ = (0, ⟨10, "tok"⟩, "tok") :=
  ⟨by norm_num, (get_auth_token_cache 5 ⟨10, "tok"⟩ ⟨100, "new"⟩).1 (by norm_num)⟩

/-- C6: whenever the listing run raises at any step — token acquisition,
a GET, or parsing a page — `get_bucket_keys` returns the empty mapping
instead of propagating the error. -/
theorem get_bucket_keys_error_gives_empty (env : IbmCloudStorage.ListEnv)
    (pfx : String) (e : PyErr)
    (h : (IbmCloudStorage.runListing env pfx).2 = Except.error e) :
    IbmCloudStorage.get_bucket_keys env pfx = [] := by
  unfold IbmCloudStorage.get_bucket_keys
  rw [h]

/-- Witness for C6: an environment whose token acquisition raises yields the
empty mapping. -/
theorem get_bucket_keys_error_gives_empty_witness :
    (IbmCloudStorage.runListing authFailListEnv "p").2
        = Except.error PyErr.connectionError
    ∧ IbmCloudStorage.get_bucket_keys authFailListEnv "p" = [] :=
  ⟨rfl, get_bucket_keys_error_gives_empty authFailListEnv "p" PyErr.connectionError rfl⟩

/-! #### Helper lemmas for the pagination loop -/

theorem listLoop_reqs_cont (pfx : String) :
    ∀ (pages : List (Except PyErr IbmCloudStorage.Page)),
      (∀ pg : IbmCloudStorage.Page, Except.ok pg ∈ pages →
        ∀ s, pg.nextContinuationToken = some s → s ≠ "") →
      ∀ (t : String), t ≠ "" →
      ∀ (params : List (String × String))
        (acc : List (String × IbmCloudStorage.BucketKeyMetadata)),
      ∀ req ∈ (IbmCloudStorage.listLoop pfx (some t) params acc pages).1,
        ∃ s, req = [("continuation-token", s), ("prefix", pfx)] := by
  intro pages
  induction pages with
  | nil =>
    intro _ t ht params acc req hreq
    simp [IbmCloudStorage.listLoop] at hreq
  | cons resp rest ih =>
    intro hpages t ht params acc req hreq
    have hrest : ∀ pg : IbmCloudStorage.Page, Except.ok pg ∈ rest →
        ∀ s, pg.nextContinuationToken = some s → s ≠ "" := by
      intro pg hm
      exact hpages pg (List.mem_cons_of_mem _ hm)
    cases resp with
    | error e =>
      simp only [IbmCloudStorage.listLoop, if_pos ht, List.mem_singleton] at hreq
      exact ⟨t, hreq⟩
    | ok page =>
      simp only [IbmCloudStorage.listLoop, if_pos ht] at hreq
      by_cases htr : page.isTruncated = "true"
      · rw [if_pos htr] at hreq
        cases hnext : page.nextContinuationToken with
        | none =>
          rw [hnext] at hreq
          simp only [List.mem_singleton] at hreq
          exact ⟨t, hreq⟩
        | some tok =>
          rw [hnext] at hreq
          simp only [List.mem_cons] at hreq
          rcases hreq with hreq | hreq
          · exact ⟨t, hreq⟩
          · have htok : tok ≠ "" :=
              hpages page (List.mem_cons_self _ _) tok hnext
            exact ih hrest tok htok _ _ req hreq
      · rw [if_neg htr] at hreq
        simp only [List.mem_singleton] at hreq
        exact ⟨t, hreq⟩

theorem listLoop_reqs_first (pfx : String)
    (pages : List (Except PyErr IbmCloudStorage.Page))
    (hpages : ∀ pg : IbmCloudStorage.Page, Except.ok pg ∈ pages →
      ∀ s, pg.nextContinuationToken = some s → s ≠ "")
    (params : List (String × String))
    (acc : List (String × IbmCloudStorage.BucketKeyMetadata)) :
    ∀ req ∈ (IbmCloudStorage.listLoop pfx none params acc pages).1.drop 1,
      ∃ s, req = [("continuation-token", s), ("prefix", pfx)] := by
  cases pages with
  | nil =>
    intro req hreq
    simp [IbmCloudStorage.listLoop] at hreq
  | cons resp rest =>
    intro req hreq
    have hrest : ∀ pg : IbmCloudStorage.Page, Except.ok pg ∈ rest →
        ∀ s, pg.nextContinuationToken = some s → s ≠ "" := by
      intro pg hm
      exact hpages pg (List.mem_cons_of_mem _ hm)
    cases resp with
    | error e => simp [IbmCloudStorage.listLoop] at hreq
    | ok page =>
      simp only [IbmCloudStorage.listLoop] at hreq
      by_cases htr : page.isTruncated = "true"
      · rw [if_pos htr] at hreq
        cases hnext : page.nextContinuationToken with
        | none =>
          rw [hnext] at hreq
          simp at hreq
        | some tok =>
          rw [hnext] at hreq
          simp only [List.drop_succ_cons, List.drop_zero] at hreq
          have htok : tok ≠ "" := hpages page (List.mem_cons_self _ _) tok hnext
          exact listLoop_reqs_cont pfx rest hrest tok htok _ _ req hreq
      · rw [if_neg htr] at hreq
        simp at hreq

/-- C7 counterexample: in a two-page listing with prefix `p`, the
continuation request re-sends the `prefix` query parameter, contrary to
the claim that continuation requests do not re-send it. -/
theorem continuation_resends_prefix_counterexample :
    ∃ req ∈ (IbmCloudStorage.runListing sampleListEnv "p").1.drop 1,
      ("prefix", "p") ∈ req := by
  refine ⟨[("continuation-token", "T"), ("prefix", "p")], ?_, ?_⟩ <;> decide

/-- C7 amended: every continuation request is issued with the
`continuation-token` parameter set and with the `prefix` parameter
re-sent (the code rebuilds `params` as both pairs on every continuation
iteration), provided no page carries an empty-string continuation token
(an empty token is falsy in Python, in which case `params` would be left
unchanged). -/
theorem continuation_requests_shape (env : IbmCloudStorage.ListEnv) (pfx : String)
    (hpages : ∀ pg : IbmCloudStorage.Page, Except.ok pg ∈ env.pages →
      ∀ s, pg.nextContinuationToken = some s → s ≠ "") :
    ∀ req ∈ (IbmCloudStorage.runListing env pfx).1.drop 1,
      ∃ s, req = [("continuation-token", s), ("prefix", pfx)] := by
  unfold IbmCloudStorage.runListing
  cases env.auth with
  | error e =>
    intro req hreq
    simp at hreq
  | ok tok =>
    exact listLoop_reqs_first pfx env.pages hpages (IbmCloudStorage.initParams pfx) []

/-- Witness for C7 at the concrete two-page environment: the single
continuation request has the amended shape. -/
theorem continuation_requests_shape_witness :
    ∃ s, [("continuation-token", "T"), ("prefix", "p")]
      = [("continuation-token", s), ("prefix", "p")] :=
  continuation_requests_shape sampleListEnv "p"
    (by
      intro pg hm s hs
      simp only [sampleListEnv, List.mem_cons, List.not_mem_nil, or_false] at hm
      rcases hm with hm | hm
      · cases hm
        simp only [samplePage1, Option.some.injEq] at hs
        subst hs
        decide
      · cases hm
        simp [samplePage2] at hs)
    [("continuation-token", "T"), ("prefix", "p")]
    (by decide)

/-- C8 counterexample: there is no lifecycle guard. A verb called before
`open` fails with `AttributeError` (from dereferencing the unset service),
which is not a `LifecycleError`; and a verb called after `close` does not
fail at all — listing swallows the closed-session error and returns an
empty mapping. -/
theorem broker_lifecycle_counterexample :
    FileBroker.get_bucket_keys FileBroker.init sampleListEnv "p"
        = Except.error PyErr.attributeError
    ∧ PyErr.attributeError ≠ PyErr.lifecycleError
    ∧ FileBroker.get_bucket_keys (FileBroker.aexit (FileBroker.aenter FileBroker.init))
        sampleListEnv "p" = Except.ok [] :=
  ⟨rfl, by decide, rfl⟩

/-- C8 amended: the Broker has no `LifecycleError` (no such class exists in
the code). Before `open`, every verb fails with `AttributeError` because
`self.service` is still `None`; after `close`, verbs still dispatch to the
service over the closed session, and listing degrades to an empty mapping
instead of raising. -/
theorem broker_verbs_outside_open (env : IbmCloudStorage.ListEnv) (pfx : String) :
    FileBroker.get_bucket_keys FileBroker.init env pfx
        = Except.error PyErr.attributeError
    ∧ FileBroker.get_bucket_keys (FileBroker.aexit (FileBroker.aenter FileBroker.init))
        env pfx = Except.ok [] :=
  ⟨rfl, rfl⟩

/-- C10 counterexample: an upload with non-empty prefix `p` whose token
acquisition raises invokes the callback with the caller's original key
`k`, not the prefixed key `pk` — the exception occurs before the
`cloud_key = prefix + cloud_key` reassignment. -/
theorem upload_prefixed_key_counterexample :
    (IbmCloudStorage.upload_file ⟨Except.error PyErr.connectionError, true, true⟩
        "b" "k" "f" "p" true).callbacks
      = [⟨"b", "k", "f", false⟩]
    ∧ ("k" : String) ≠ "p" ++ "k" :=
  ⟨rfl, by simp⟩

/-- C10 amended: whenever token acquisition succeeds (the only step that
precedes the key reassignment), every PUT request URL and every callback
invocation uses `prefix ++ key` when the prefix is non-empty and the
unchanged key when it is empty; when token acquisition raises, no PUT is
issued and the callback receives the caller's original key. -/
theorem upload_file_key_prefixing (env : IbmCloudStorage.UploadEnv)
    (b k f pfx : String) (cb : Bool) :
    (∀ tok, env.auth = Except.ok tok →
      (∀ u ∈ (IbmCloudStorage.upload_file env b k f pfx cb).putKeys,
        u = if pfx ≠ "" then pfx ++ k else k)
      ∧ (∀ c ∈ (IbmCloudStorage.upload_file env b k f pfx cb).callbacks,
        c.cloud_key = if pfx ≠ "" then pfx ++ k else k))
    ∧ (∀ e, env.auth = Except.error e →
      (IbmCloudStorage.upload_file env b k f pfx cb).putKeys = []
      ∧ (∀ c ∈ (IbmCloudStorage.upload_file env b k f pfx cb).callbacks,
        c.cloud_key = k)) := by
  obtain ⟨auth, openOk, putOk⟩ := env
  constructor
  · intro tok htok
    simp only at htok
    subst htok
    constructor
    · intro u hu
      simp only [IbmCloudStorage.upload_file] at hu
      cases openOk <;> cases cb <;> simp_all
    · intro c hc
      simp only [IbmCloudStorage.upload_file] at hc
      cases openOk <;> cases cb <;> simp_all
  · intro e he
    simp only at he
    subst he
    constructor
    · rfl
    · intro c hc
      simp only [IbmCloudStorage.upload_file] at hc
      cases cb <;> simp_all

/-- Witness for C10 at a successful-token environment with prefix `p`. -/
theorem upload_file_key_prefixing_witness :
    (∀ u ∈ (IbmCloudStorage.upload_file ⟨Except.ok "t", true, true⟩
        "b" "k" "f" "p" true).putKeys,
      u = if ("p" : String) ≠ "" then "p" ++ "k" else "k")
    ∧ (∀ c ∈ (IbmCloudStorage.upload_file ⟨Except.ok "t", true, true⟩
        "b" "k" "f" "p" true).callbacks,
      c.cloud_key = if ("p" : String) ≠ "" then "p" ++ "k" else "k") :=
  (upload_file_key_prefixing ⟨Except.ok "t", true, true⟩ "b" "k" "f" "p" true).1
    "t" rfl

/-! #### Helper lemmas for `itertools.groupby` -/

theorem groupbyGo_pairs {α β γ : Type} [DecidableEq β] (f : α → β) (g : α → γ) :
    ∀ (l : List α) (k : β) (run : List α), (∀ a ∈ run, f a = k) →
      (FileBroker.groupbyGo f k run l).flatMap (fun c => c.2.map (fun a => (c.1, g a)))
        = (run ++ l).map (fun a => (f a, g a)) := by
  intro l
  induction l with
  | nil =>
    intro k run hrun
    simp only [FileBroker.groupbyGo, List.flatMap_cons, List.flatMap_nil,
      List.append_nil]
    exact (List.map_congr_left (fun a ha => by rw [hrun a ha])).symm
  | cons x rest ih =>
    intro k run hrun
    simp only [FileBroker.groupbyGo]
    by_cases hfx : f x = k
    · rw [if_pos hfx, ih k (run ++ [x]) (by
        intro a ha
        rcases List.mem_append.mp ha with ha | ha
        · exact hrun a ha
        · rw [List.mem_singleton.mp ha, hfx])]
      simp
    · rw [if_neg hfx]
      simp only [List.flatMap_cons]
      rw [ih (f x) [x] (by intro a ha; rw [List.mem_singleton.mp ha])]
      have hh : run.map (fun a => (k, g a)) = run.map (fun a => (f a, g a)) :=
        (List.map_congr_left (fun a ha => by rw [hrun a ha])).symm
      rw [hh]
      simp

theorem groupbyGo_snd_ne_nil {α β : Type} [DecidableEq β] (f : α → β) :
    ∀ (l : List α) (k : β) (run : List α), run ≠ [] →
      ∀ c ∈ FileBroker.groupbyGo f k run l, c.2 ≠ [] := by
  intro l
  induction l with
  | nil =>
    intro k run hrun c hc
    simp only [FileBroker.groupbyGo, List.mem_singleton] at hc
    rw [hc]
    exact hrun
  | cons x rest ih =>
    intro k run hrun c hc
    simp only [FileBroker.groupbyGo] at hc
    by_cases hfx : f x = k
    · rw [if_pos hfx] at hc
      exact ih k (run ++ [x]) (by simp) c hc
    · rw [if_neg hfx] at hc
      rcases List.mem_cons.mp hc with hc | hc
      · rw [hc]
        exact hrun
      · exact ih (f x) [x] (by simp) c hc

theorem groupbyGo_keys {α β : Type} [DecidableEq β] (f : α → β) :
    ∀ (l : List α) (k : β) (run : List α),
      ∃ t, (FileBroker.groupbyGo f k run l).map Prod.fst = k :: t
        ∧ List.Chain' (fun a b => a ≠ b) (k :: t) := by
  intro l
  induction l with
  | nil =>
    intro k run
    exact ⟨[], rfl, List.chain'_singleton k⟩
  | cons x rest ih =>
    intro k run
    simp only [FileBroker.groupbyGo]
    by_cases hfx : f x = k
    · rw [if_pos hfx]
      exact ih k (run ++ [x])
    · rw [if_neg hfx]
      obtain ⟨t2, heq, hch⟩ := ih (f x) [x]
      refine ⟨f x :: t2, ?_, ?_⟩
      · simp only [List.map_cons, heq]
      · exact List.chain'_cons.mpr ⟨fun hh => hfx hh.symm, hch⟩

/-- C9 counterexample: with three missing paths `a/x`, `b/y`, `a/z` (every
path missing locally), `sync_local_files` issues three `download_files`
calls, two of them for the same directory `a` — not exactly one call per
distinct target directory, because `itertools.groupby` groups only
consecutive paths and the list is never sorted by directory. -/
theorem sync_one_call_per_directory_counterexample :
    FileBroker.sync_local_files (fun _ => false) pathsABA
        = [("a", ["x"]), ("b", ["y"]), ("a", ["z"])]
    ∧ ((FileBroker.sync_local_files (fun _ => false) pathsABA).map Prod.fst).count "a"
        = 2 := by
  constructor <;> rfl

/-- C9 amended: only the input paths missing on local disk trigger
downloads (present files are never downloaded); each missing path
contributes exactly one download, in input order, to the `download_files`
call of its own directory, with its base name as the cloud key; and there
is one `download_files` call per maximal run of consecutive missing paths
sharing a directory (adjacent calls always target different directories),
not necessarily one per distinct directory. -/
theorem sync_local_files_downloads (ex : FileBroker.LocalPath → Bool)
    (paths : List FileBroker.LocalPath) :
    (FileBroker.sync_local_files ex paths).flatMap
        (fun c => c.2.map (fun b => (c.1, b)))
      = (paths.filter (fun p => !(ex p))).map (fun p => (p.dir, p.base))
    ∧ (∀ c ∈ FileBroker.sync_local_files ex paths, c.2 ≠ [])
    ∧ List.Chain' (fun a b => a ≠ b)
        ((FileBroker.sync_local_files ex paths).map Prod.fst) := by
  unfold FileBroker.sync_local_files
  refine ⟨?_, ?_, ?_⟩
  · rw [List.flatMap_map]
    cases hm : paths.filter (fun p => !(ex p)) with
    | nil => simp [FileBroker.groupby]
    | cons x rest =>
      simp only [FileBroker.groupby]
      have := groupbyGo_pairs (fun p : FileBroker.LocalPath => p.dir)
        (fun p : FileBroker.LocalPath => p.base) rest x.dir [x] (by simp)
      simp only [List.map_map] at this ⊢
      simpa using this
  · intro c hc
    simp only [List.mem_map] at hc
    obtain ⟨grp, hgrp, rfl⟩ := hc
    simp only [ne_eq, List.map_eq_nil_iff]
    cases hm : paths.filter (fun p => !(ex p)) with
    | nil => rw [hm] at hgrp; simp [FileBroker.groupby] at hgrp
    | cons x rest =>
      rw [hm] at hgrp
      simp only [FileBroker.groupby] at hgrp
      exact groupbyGo_snd_ne_nil (fun p : FileBroker.LocalPath => p.dir)
        rest x.dir [x] (by simp) grp hgrp
  · rw [List.map_map]
    have hfst : (Prod.fst ∘ fun g : String × List FileBroker.LocalPath =>
        (g.1, g.2.map (fun p => p.base))) = Prod.fst := rfl
    rw [hfst]
    cases hm : paths.filter (fun p => !(ex p)) with
    | nil => simp [FileBroker.groupby]
    | cons x rest =>
      simp only [FileBroker.groupby]
      obtain ⟨t, heq, hch⟩ :=
        groupbyGo_keys (fun p : FileBroker.LocalPath => p.dir) rest x.dir [x]
      rw [heq]
      exact hch

/-- Witness for C9 at the alternating-directory input with nothing existing
locally. -/
theorem sync_local_files_downloads_witness :
    (FileBroker.sync_local_files (fun _ => true) pathsABA).flatMap
        (fun c => c.2.map (fun b => (c.1, b)))
      = (pathsABA.filter (fun p => !true)).map (fun p => (p.dir, p.base))
    ∧ (∀ c ∈ FileBroker.sync_local_files (fun _ => true) pathsABA, c.2 ≠ [])
    ∧ List.Chain' (fun a b => a ≠ b)
        ((FileBroker.sync_local_files (fun _ => true) pathsABA).map Prod.fst) :=
  sync_local_files_downloads (fun _ => true) pathsABA
